import Mathlib

/-!
Shallow embedding of the TOTP repository's code-derivation and validation
core (otp-backend/main.go, plus the firmware's Base32 decoder) and proofs
of the spec's claims about it.

Bytes are modelled as `Nat` values below 256, byte strings as `List Nat`,
and machine words as `Nat` reduced modulo `2^32` / `2^64` where the Go
code uses `uint32` / `uint64`.
-/

namespace Totp

/-- Reduce to a 32-bit word, as Go `uint32` arithmetic does implicitly. -/
def w32 (x : Nat) : Nat := x % 4294967296

/-- 32-bit left rotation of a word `x < 2^32` by `s` bits (`0 < s < 32`). -/
def rotl (s x : Nat) : Nat := w32 ((x <<< s) ||| (x >>> (32 - s)))

/-- Big-endian 8-byte encoding of a 64-bit value, as Go
`binary.BigEndian.PutUint64` produces. -/
def be64 (n : Nat) : List Nat :=
  [(n >>> 56) &&& 255, (n >>> 48) &&& 255, (n >>> 40) &&& 255,
   (n >>> 32) &&& 255, (n >>> 24) &&& 255, (n >>> 16) &&& 255,
   (n >>> 8) &&& 255, n &&& 255]

/-- Big-endian 4-byte encoding of a 32-bit word. -/
def wordBytes (w : Nat) : List Nat :=
  [(w >>> 24) &&& 255, (w >>> 16) &&& 255, (w >>> 8) &&& 255, w &&& 255]

/-- Assemble consecutive 4-byte groups into big-endian 32-bit words. -/
def bytesToWords : List Nat → List Nat
  | b0 :: b1 :: b2 :: b3 :: rest =>
      ((b0 <<< 24) ||| (b1 <<< 16) ||| (b2 <<< 8) ||| b3) :: bytesToWords rest
  | _ => []

/-- Split into 64-byte blocks, structurally recursing on a fuel bound so
the kernel can evaluate it (the fuel never runs out when it starts at
`l.length + 1`). -/
def toBlocksFuel : Nat → List Nat → List (List Nat)
  | 0, _ => []
  | _ + 1, [] => []
  | fuel + 1, b :: rest => ((b :: rest).take 64) :: toBlocksFuel fuel ((b :: rest).drop 64)

/-- Split a padded message into 64-byte blocks. -/
def toBlocks (l : List Nat) : List (List Nat) := toBlocksFuel (l.length + 1) l

/-- The five 32-bit chaining words of SHA-1. -/
structure Sha1State where
  h0 : Nat
  h1 : Nat
  h2 : Nat
  h3 : Nat
  h4 : Nat

/-- SHA-1 / MD-style padding: append `0x80`, zero bytes up to 56 mod 64,
then the 64-bit big-endian bit length. -/
def sha1Pad (msg : List Nat) : List Nat :=
  let len := msg.length
  let padLen := (119 - len % 64) % 64
  msg ++ [0x80] ++ List.replicate padLen 0 ++ be64 ((8 * len) % 18446744073709551616)

/-- Message-schedule extension, keeping the already-produced words in
reverse order so that `w[i-3]`, `w[i-8]`, `w[i-14]`, `w[i-16]` are at
positions 2, 7, 13, 15 of the accumulator. -/
def extendRev (acc : List Nat) : Nat → List Nat
  | 0 => acc
  | n + 1 =>
      extendRev
        (rotl 1 ((acc.getD 2 0) ^^^ (acc.getD 7 0) ^^^ (acc.getD 13 0) ^^^ (acc.getD 15 0)) :: acc)
        n

/-- The 80 words of the SHA-1 message schedule for one 64-byte block. -/
def scheduleWords (block : List Nat) : List Nat :=
  (extendRev (bytesToWords block).reverse 64).reverse

/-- One SHA-1 round: the round function and constant depend on the round
index quartile. -/
def sha1Round (st : Nat × Nat × Nat × Nat × Nat) (iw : Nat × Nat) :
    Nat × Nat × Nat × Nat × Nat :=
  match st, iw with
  | (a, b, c, d, e), (i, wi) =>
    let fk : Nat × Nat :=
      if i < 20 then (((b &&& c) ||| ((b ^^^ 4294967295) &&& d)), 0x5A827999)
      else if i < 40 then ((b ^^^ c ^^^ d), 0x6ED9EBA1)
      else if i < 60 then (((b &&& c) ||| (b &&& d) ||| (c &&& d)), 0x8F1BBCDC)
      else ((b ^^^ c ^^^ d), 0xCA62C1D6)
    let temp := w32 (rotl 5 a + fk.1 + e + fk.2 + wi)
    (temp, a, rotl 30 b, c, d)

/-- SHA-1 compression of one 64-byte block into the chaining state. -/
def sha1Block (st : Sha1State) (block : List Nat) : Sha1State :=
  let w := scheduleWords block
  let fin := (List.zip (List.range 80) w).foldl sha1Round (st.h0, st.h1, st.h2, st.h3, st.h4)
  match fin with
  | (a, b, c, d, e) =>
    ⟨w32 (st.h0 + a), w32 (st.h1 + b), w32 (st.h2 + c), w32 (st.h3 + d), w32 (st.h4 + e)⟩

/-- SHA-1 of a byte sequence: 20-byte digest. -/
def sha1 (msg : List Nat) : List Nat :=
  let fin := (toBlocks (sha1Pad msg)).foldl sha1Block
    ⟨0x67452301, 0xEFCDAB89, 0x98BADCFE, 0x10325476, 0xC3D2E1F0⟩
  wordBytes fin.h0 ++ wordBytes fin.h1 ++ wordBytes fin.h2 ++ wordBytes fin.h3 ++ wordBytes fin.h4

/-- HMAC-SHA1 as Go's `crypto/hmac` computes it: a key longer than the
64-byte block size is first hashed; the key is zero-padded to 64 bytes
and combined with the inner/outer pads. -/
def hmacSha1 (key msg : List Nat) : List Nat :=
  let k0 := if 64 < key.length then sha1 key else key
  let kp := k0 ++ List.replicate (64 - k0.length) 0
  sha1 ((kp.map fun b => b ^^^ 0x5c) ++ sha1 ((kp.map fun b => b ^^^ 0x36) ++ msg))

/-- The decimal digit character for `d % 10`. -/
def digitChar (d : Nat) : Char := Char.ofNat (48 + d % 10)

/-- Go `fmt.Sprintf "%04d"` for a value below 10000 (the only way the
backend calls it): the four decimal digits, zero-padded. -/
def sprintf04 (n : Nat) : String :=
  String.mk [digitChar (n / 1000), digitChar (n / 100), digitChar (n / 10), digitChar n]

/-- `generate4DigitTOTP` from otp-backend/main.go: 8-byte big-endian
counter, HMAC-SHA1, RFC 4226 dynamic truncation, reduction to 6 then to
4 digits, zero-padded formatting. -/
def generate4DigitTOTP (secret : List Nat) (timeCounter : Nat) : String :=
  let timeBytes := be64 timeCounter
  let hash := hmacSha1 secret timeBytes
  let offset := (hash.getD (hash.length - 1) 0) &&& 0x0F
  let truncatedHash :=
    (((hash.getD offset 0) <<< 24) ||| ((hash.getD (offset + 1) 0) <<< 16) |||
     ((hash.getD (offset + 2) 0) <<< 8) ||| (hash.getD (offset + 3) 0)) &&& 0x7FFFFFFF
  let sixDigitOTP := truncatedHash % 1000000
  let fourDigitOTP := sixDigitOTP % 10000
  sprintf04 fourDigitOTP

/-- `TIME_STEP` from main.go: 30-second counter windows. -/
def TIME_STEP : Nat := 30

/-- `OTP_DIGITS` from main.go: 4-digit codes. -/
def OTP_DIGITS : Nat := 4

/-- `SKEW_TOLERANCE` from main.go: one window of drift each way. -/
def SKEW_TOLERANCE : Nat := 1

/-- `BASE32_SECRET` from main.go (also the firmware's `base32Secret`). -/
def BASE32_SECRET : String := "JBSWY3DPEHPK3PXP"

/-- The offsets scanned by the validator loop
`for i := -SKEW_TOLERANCE; i <= SKEW_TOLERANCE; i++`, in loop order. -/
def skewOffsets : List Int :=
  (List.range (2 * SKEW_TOLERANCE + 1)).map fun k => (k : Int) - (SKEW_TOLERANCE : Int)

/-- One iteration of the validator loop in `validate4DigitTOTP`
(main.go): skip a negative candidate counter, otherwise compare the
submitted string against the code derived for `currentTimeCounter + i`.
The `int64(currentTimeCounter)` conversion in the source cannot overflow
because a `uint64` divided by 30 is below `2^63`, so `Int` arithmetic
models it exactly. -/
def scanHit (providedOTP : String) (secret : List Nat) (now : Nat) (i : Int) : Bool :=
  if ((now / TIME_STEP : Nat) : Int) + i < 0 then false
  else providedOTP == generate4DigitTOTP secret (((now / TIME_STEP : Nat) : Int) + i).toNat

/-- `validate4DigitTOTP` from main.go, with the wall-clock read
`time.Now().UTC().Unix()` made an explicit `now` parameter (seconds since
the epoch). The loop's early `return true` is `List.any` over the scanned
offsets. -/
def validate4DigitTOTP (providedOTP : String) (secret : List Nat) (now : Nat) : Bool :=
  skewOffsets.any (scanHit providedOTP secret now)

/-- The same scan, returning the first matching offset — the `i` the
source logs on a match (`"validated with time skew: %d windows"`),
`none` when the loop falls through to `return false`. -/
def validate4DigitTOTPOffset (providedOTP : String) (secret : List Nat) (now : Nat) :
    Option Int :=
  skewOffsets.find? (scanHit providedOTP secret now)

/-- The Base32 alphabet scanned by both decoders. -/
def base32Alphabet : List Char := "ABCDEFGHIJKLMNOPQRSTUVWXYZ234567".data

/-- The alphabet lookup of both decoders: index of the character, `none`
for the `value == -1` (skip) case. -/
def b32Value (c : Char) : Option Nat := base32Alphabet.findIdx? (· == c)

/-- Whitespace as Go `unicode.IsSpace` classifies it (the Unicode
White_Space property): tab, LF, VT, FF, CR, space, NEL (U+0085), NBSP
(U+00A0), OGHAM SPACE MARK (U+1680), the EN QUAD .. HAIR SPACE range
(U+2000–U+200A), LINE SEPARATOR (U+2028), PARAGRAPH SEPARATOR (U+2029),
NARROW NO-BREAK SPACE (U+202F), MEDIUM MATHEMATICAL SPACE (U+205F) and
IDEOGRAPHIC SPACE (U+3000). -/
def goIsSpace (c : Char) : Bool :=
  c == '\t' || c == '\n' || c == '\u000B' || c == '\u000C' ||
  c == '\r' || c == ' ' || c == '\u0085' || c == '\u00A0' ||
  c == '\u1680' || c == '\u2000' || c == '\u2001' || c == '\u2002' ||
  c == '\u2003' || c == '\u2004' || c == '\u2005' || c == '\u2006' ||
  c == '\u2007' || c == '\u2008' || c == '\u2009' || c == '\u200A' ||
  c == '\u2028' || c == '\u2029' || c == '\u202F' || c == '\u205F' ||
  c == '\u3000'

/-- Go `strings.ToUpper` restricted to the code points that can reach the
Base32 alphabet: the ASCII simple case mapping, plus LATIN SMALL LETTER
DOTLESS I (U+0131, which uppercases to `I`) and LATIN SMALL LETTER
LONG S (U+017F, which uppercases to `S`) — the only two further code
points whose Unicode simple uppercase mapping lands in `A`–`Z`; all
other characters are left unchanged, which agrees with
`strings.ToUpper` on every character whose image could matter to the
alphabet lookup. -/
def goToUpper (c : Char) : Char :=
  if 97 ≤ c.toNat ∧ c.toNat ≤ 122 then Char.ofNat (c.toNat - 32)
  else if c.toNat = 0x131 then 'I'
  else if c.toNat = 0x17F then 'S'
  else c

/-- Go `strings.TrimSpace`: drop leading and trailing whitespace. -/
def goTrimSpace (l : List Char) : List Char :=
  ((l.dropWhile goIsSpace).reverse.dropWhile goIsSpace).reverse

/-- The shared accumulator loop of `decodeBase32` (main.go) and the
firmware's `manualBase32Decode`: skip characters outside the alphabet,
shift 5 bits per valid character into a `uint32` buffer, emit the top 8
accumulated bits as each output byte. -/
def decodeCore : List Char → Nat → Nat → List Nat → List Nat
  | [], _, _, acc => acc
  | c :: rest, buffer, bitsLeft, acc =>
    match b32Value c with
    | none => decodeCore rest buffer bitsLeft acc
    | some v =>
      let buff := w32 ((buffer <<< 5) ||| v)
      let bits := bitsLeft + 5
      if 8 ≤ bits then
        decodeCore rest buff (bits - 8) (acc ++ [(buff >>> (bits - 8)) &&& 255])
      else decodeCore rest buff bits acc

/-- `decodeBase32` from main.go: uppercase the trimmed input, then run
the accumulator loop (the returned Go `error` is always `nil`). -/
def decodeBase32 (s : String) : List Nat :=
  decodeCore ((goTrimSpace s.data).map goToUpper) 0 0 []

/-- `manualBase32Decode` from the firmware sketch: the identical
accumulator loop, but with no trimming or uppercasing; the returned byte
count is the length of the returned list. -/
def manualBase32Decode (encoded : List Char) : List Nat :=
  decodeCore encoded 0 0 []

/-- Success of Go `strconv.Atoi` on a short string (no more than 18
digits, so the `int64` range check cannot fire — the handler only calls
it on length-4 input): an optional leading sign followed by at least one
ASCII decimal digit and nothing else. -/
def goAtoiOk (s : List Char) : Bool :=
  match s with
  | [] => false
  | c :: rest =>
    let digitsPart := if c == '+' || c == '-' then rest else c :: rest
    !digitsPart.isEmpty && digitsPart.all Char.isDigit

/-- The shape checks `validateHandler` (main.go) runs between JSON
decoding and any call into `generate4DigitTOTP`/`validate4DigitTOTP`:
first the byte-length test `len(req.OTP) != OTP_DIGITS`, then the
`strconv.Atoi` test; `some msg` is the client-error message returned,
`none` means the request reaches the cryptographic comparison. -/
def validateShape (otp : String) : Option String :=
  if otp.utf8ByteSize ≠ OTP_DIGITS then some "OTP must be 4 digits"
  else if !goAtoiOk otp.data then some "OTP must contain only digits"
  else none

/-- The `expiresAt` field computed by `generateOtpHandler` (main.go):
`(now.Unix() + TIME_STEP) * 1000`. -/
def expiresAtMs (now : Nat) : Nat := (now + TIME_STEP) * 1000

/-- The direct single-step reduction the spec's design note describes:
identical to `generate4DigitTOTP` except that the truncated hash is
reduced `mod 10^4` in one step, with no intermediate 6-digit value. -/
def deriveDirect4 (secret : List Nat) (timeCounter : Nat) : String :=
  let timeBytes := be64 timeCounter
  let hash := hmacSha1 secret timeBytes
  let offset := (hash.getD (hash.length - 1) 0) &&& 0x0F
  let truncatedHash :=
    (((hash.getD offset 0) <<< 24) ||| ((hash.getD (offset + 1) 0) <<< 16) |||
     ((hash.getD (offset + 2) 0) <<< 8) ||| (hash.getD (offset + 3) 0)) &&& 0x7FFFFFFF
  sprintf04 (truncatedHash % 10000)

/-- The 20 ASCII bytes of `"12345678901234567890"`, the RFC 4226
Appendix D test key. -/
def rfcKey : List Nat :=
  [49, 50, 51, 52, 53, 54, 55, 56, 57, 48, 49, 50, 51, 52, 53, 54, 55, 56, 57, 48]

/-- `l₂` is `l₁` with extra characters interspersed, each of which is
outside the Base32 alphabet after uppercasing. -/
inductive InsertInvalid : List Char → List Char → Prop
  | nil : InsertInvalid [] []
  | cons (c : Char) {l₁ l₂ : List Char} :
      InsertInvalid l₁ l₂ → InsertInvalid (c :: l₁) (c :: l₂)
  | skip (c : Char) {l₁ l₂ : List Char} :
      b32Value (goToUpper c) = none → InsertInvalid l₁ l₂ → InsertInvalid l₁ (c :: l₂)


/-! ### Helper lemmas -/

/-- With `SKEW_TOLERANCE = 1` the validator scans exactly the offsets
`-1, 0, 1`, in that (loop) order. -/
lemma skewOffsets_eq : skewOffsets = [-1, 0, 1] := by decide

/-- A SHA-1 digest always has 20 bytes. -/
lemma sha1_length (msg : List Nat) : (sha1 msg).length = 20 := by
  unfold sha1 wordBytes
  simp

/-- An HMAC-SHA1 digest always has 20 bytes. -/
lemma hmacSha1_length (key msg : List Nat) : (hmacSha1 key msg).length = 20 := by
  unfold hmacSha1
  exact sha1_length _

/-- `digitChar` always yields a decimal digit character. -/
lemma digitChar_isDigit (d : Nat) : (digitChar d).isDigit = true := by
  unfold digitChar
  have h : d % 10 < 10 := Nat.mod_lt _ (by norm_num)
  set m := d % 10 with hm
  interval_cases m <;> decide

/-- The loop body accepts the code derived for the candidate counter it
is pointed at. -/
lemma scanHit_self (key : List Nat) (C now : Nat) (i : Int)
    (h : ((now / TIME_STEP : Nat) : Int) + i = (C : Int)) :
    scanHit (generate4DigitTOTP key C) key now i = true := by
  unfold scanHit
  rw [h, if_neg (by exact Int.not_lt.mpr (Int.natCast_nonneg C))]
  simp

/-- Every whitespace character (in Go's sense) is outside the Base32
alphabet, even after uppercasing. -/
lemma space_invalid {c : Char} (h : goIsSpace c = true) :
    b32Value (goToUpper c) = none := by
  simp only [goIsSpace, Bool.or_eq_true, beq_iff_eq] at h
  rcases h with (((((((((((((((((((((((h | h) | h) | h) | h) | h) | h) | h) | h) | h) | h) | h) | h) | h) | h) | h) | h) | h) | h) | h) | h) | h) | h) | h) | h <;> subst h <;> decide

/-- The accumulator loop ignores characters outside the alphabet,
whatever its current state. -/
lemma decodeCore_skip {c : Char} (h : b32Value c = none) (l : List Char)
    (buffer bitsLeft : Nat) (acc : List Nat) :
    decodeCore (c :: l) buffer bitsLeft acc = decodeCore l buffer bitsLeft acc := by
  simp only [decodeCore, h]

/-- Interspersing invalid characters does not change the accumulator
loop's output, from any starting state. -/
lemma decodeCore_insertInvalid {l₁ l₂ : List Char} (h : InsertInvalid l₁ l₂) :
    ∀ buffer bitsLeft acc,
      decodeCore (l₁.map goToUpper) buffer bitsLeft acc
        = decodeCore (l₂.map goToUpper) buffer bitsLeft acc := by
  induction h with
  | nil => intro buffer bitsLeft acc; rfl
  | cons c h ih =>
      intro buffer bitsLeft acc
      simp only [List.map_cons]
      cases hv : b32Value (goToUpper c) with
      | none => rw [decodeCore_skip hv, decodeCore_skip hv]; exact ih buffer bitsLeft acc
      | some v =>
          simp only [decodeCore, hv]
          split <;> apply ih
  | skip c hc h ih =>
      intro buffer bitsLeft acc
      simp only [List.map_cons]
      rw [decodeCore_skip hc]
      exact ih buffer bitsLeft acc

/-- `InsertInvalid` is reflexive. -/
lemma insertInvalid_refl (l : List Char) : InsertInvalid l l := by
  induction l with
  | nil => exact .nil
  | cons c l ih => exact .cons c ih

/-- A list of invalid characters can be inserted in front and behind. -/
lemma insertInvalid_wrap (l pre suf : List Char)
    (hpre : ∀ c ∈ pre, b32Value (goToUpper c) = none)
    (hsuf : ∀ c ∈ suf, b32Value (goToUpper c) = none) :
    InsertInvalid l (pre ++ l ++ suf) := by
  induction pre with
  | nil =>
      simp only [List.nil_append]
      induction l with
      | nil =>
          simp only [List.nil_append]
          induction suf with
          | nil => exact .nil
          | cons c suf ih =>
              exact .skip c (hsuf c (by simp)) (ih fun c hc => hsuf c (by simp [hc]))
      | cons c l ih => exact .cons c ih
  | cons c pre ih =>
      exact .skip c (hpre c (by simp))
        (by simpa using ih fun c hc => hpre c (by simp [hc]))

/-- Trimming whitespace never changes what `decodeBase32` produces: the
decode of a string equals the accumulator loop run on the untrimmed,
uppercased character list. -/
lemma decodeBase32_eq_untrimmed (s : String) :
    decodeBase32 s = decodeCore (s.data.map goToUpper) 0 0 [] := by
  unfold decodeBase32
  generalize s.data = l
  have h1 : l = l.takeWhile goIsSpace ++ l.dropWhile goIsSpace :=
    (List.takeWhile_append_dropWhile _ _).symm
  have h2 : l.dropWhile goIsSpace
      = goTrimSpace l ++ ((l.dropWhile goIsSpace).reverse.takeWhile goIsSpace).reverse := by
    unfold goTrimSpace
    conv_lhs => rw [← (l.dropWhile goIsSpace).reverse_reverse,
      ← List.takeWhile_append_dropWhile
        (p := goIsSpace) (l := (l.dropWhile goIsSpace).reverse)]
    rw [List.reverse_append]
  have hIns : InsertInvalid (goTrimSpace l) l := by
    conv_rhs => rw [h1, h2]
    rw [← List.append_assoc]
    exact insertInvalid_wrap _ _ _
      (fun c hc => space_invalid (List.mem_takeWhile_imp hc))
      (fun c hc => space_invalid (List.mem_takeWhile_imp (by simpa using hc)))
  exact decodeCore_insertInvalid hIns 0 0 []

/-! ### Claims -/

/-- C1 (counterexample): at `now = 1` the handler's `expiresAt`,
`(now + 30) * 1000 = 31000`, is not the start of the next counter
window, `(floor(1/30) + 1) * 30 * 1000 = 30000`. -/
theorem expiresAtMs_next_window_cex :
    expiresAtMs 1 ≠ (1 / TIME_STEP + 1) * TIME_STEP * 1000 := by decide

/-- C1 (amended): for every Unix time `now`, the Generate handler's
`expiresAt` equals `(now + TimeStep) * 1000`, which is the start of the
next counter window plus the offset of `now` inside its window — so it
coincides with `(floor(now/TimeStep) + 1) * TimeStep * 1000` exactly
when `now` is a multiple of `TimeStep`. -/
theorem expiresAtMs_eq_next_window_plus_phase (now : Nat) :
    expiresAtMs now
      = (now / TIME_STEP + 1) * TIME_STEP * 1000 + (now % TIME_STEP) * 1000 := by
  unfold expiresAtMs TIME_STEP
  omega

/-- C6: `generate4DigitTOTP` is total for every byte-sequence key and
every 64-bit counter — the dynamic-truncation read stays inside the
20-byte HMAC-SHA1 digest — and its output is a string of exactly 4
decimal digit characters. (Determinism is by construction: the embedding
is a pure function of `key` and `counter`.) -/
theorem generate4DigitTOTP_total_fixed_width (key : List Nat) (counter : Nat)
    (_hkey : ∀ b ∈ key, b < 256) (_hctr : counter < 2 ^ 64) :
    (((hmacSha1 key (be64 counter)).getD ((hmacSha1 key (be64 counter)).length - 1) 0
        &&& 0x0F) + 4 ≤ (hmacSha1 key (be64 counter)).length) ∧
    (generate4DigitTOTP key counter).length = 4 ∧
    ∀ c ∈ (generate4DigitTOTP key counter).data, c.isDigit = true := by
  refine ⟨?_, ?_, ?_⟩
  · rw [hmacSha1_length]
    have h : ((hmacSha1 key (be64 counter)).getD (20 - 1) 0) &&& 0x0F ≤ 0x0F :=
      Nat.and_le_right
    omega
  · unfold generate4DigitTOTP sprintf04
    simp [String.length]
  · unfold generate4DigitTOTP sprintf04
    intro c hc
    simp at hc
    rcases hc with rfl | rfl | rfl | rfl <;> exact digitChar_isDigit _

/-- C6 witness: the conclusions at a concrete key and counter. -/
theorem generate4DigitTOTP_total_fixed_width_witness :
    (generate4DigitTOTP [1, 2, 3] 7).length = 4 :=
  (generate4DigitTOTP_total_fixed_width [1, 2, 3] 7 (by decide) (by decide)).2.1

/-- C7: the two-step reduction (mod 10^6 then mod 10^4) in
`generate4DigitTOTP` computes the same code as the spec's direct
single-step `mod 10^4` reference, for every key and counter. -/
theorem generate4DigitTOTP_eq_deriveDirect4 (key : List Nat) (counter : Nat) :
    generate4DigitTOTP key counter = deriveDirect4 key counter := by
  have h : ∀ t : Nat, t % 1000000 % 10000 = t % 10000 := fun t =>
    Nat.mod_mod_of_dvd t (by norm_num)
  simp only [generate4DigitTOTP, deriveDirect4, h]

set_option maxRecDepth 1000000 in
/-- C8: the RFC 4226 Appendix D vectors, reduced to 4 digits: with the
20 ASCII bytes of `"12345678901234567890"` as key, counters 0 and 1
yield `"5224"` and `"7082"` (the last four digits of `"755224"` and
`"287082"`). -/
theorem generate4DigitTOTP_rfc_vectors :
    generate4DigitTOTP rfcKey 0 = "5224" ∧ generate4DigitTOTP rfcKey 1 = "7082" :=
  ⟨by decide, by decide⟩

set_option maxRecDepth 1000000 in
/-- C10: the server's `decodeBase32` on the configured secret yields
exactly the same bytes as the firmware's `manualBase32Decode`, and that
byte sequence has length exactly 10 — all 16 characters are valid, and
16 × 5 = 80 bits fill the firmware's 10-byte `hmacKey` buffer with no
leftover bits. -/
theorem decodeBase32_secret_ten_bytes :
    decodeBase32 BASE32_SECRET = manualBase32Decode BASE32_SECRET.data ∧
    (decodeBase32 BASE32_SECRET).length = 10 :=
  ⟨by decide, by decide⟩

/-- C5 (code evaluated at the failing input): the string `"+123"` is not
all-numeric, yet both handler shape checks pass it (`strconv.Atoi`
accepts a leading sign), so it reaches the cryptographic comparison —
contradicting the claim and the source's own comment that the check
ensures the OTP "contains only digits". -/
theorem validateShape_accepts_plus123 :
    validateShape "+123" = none ∧ ("+123".data.all Char.isDigit) = false :=
  ⟨by decide, by decide⟩

/-- C9: `decodeBase32` is invariant under interspersing characters that
fall outside the Base32 alphabet (after uppercasing): decoding the
polluted string yields the same bytes as decoding the original. -/
theorem decodeBase32_insert_invalid (s t : String)
    (h : InsertInvalid s.data t.data) :
    decodeBase32 t = decodeBase32 s := by
  rw [decodeBase32_eq_untrimmed s, decodeBase32_eq_untrimmed t]
  exact (decodeCore_insertInvalid h 0 0 []).symm

/-- C9 witness: decoding the secret with spaces and punctuation injected
yields the same bytes as decoding it plain. -/
theorem decodeBase32_insert_invalid_witness :
    decodeBase32 "JBSW Y3DP-EHPK 3PXP!" = decodeBase32 "JBSWY3DPEHPK3PXP" :=
  decodeBase32_insert_invalid _ _ (by
    repeat first
      | exact InsertInvalid.nil
      | refine InsertInvalid.skip _ (by decide) ?_
      | refine InsertInvalid.cons _ ?_)

/-- C3: a code derived for counter `C` is accepted whenever the
validator's current time maps to counter `C - 1`, `C`, or `C + 1` (the
counters involved being non-negative): the exact counter `C` is always
among the scanned candidates, so the scan finds a match. -/
theorem validate_accepts_inside_tolerance (key : List Nat) (C now : Nat)
    (hwin : now / TIME_STEP = C + 1 ∨ now / TIME_STEP = C ∨
      (1 ≤ C ∧ now / TIME_STEP + 1 = C)) :
    validate4DigitTOTP (generate4DigitTOTP key C) key now = true := by
  unfold validate4DigitTOTP
  rw [skewOffsets_eq, List.any_eq_true]
  rcases hwin with h | h | ⟨hC, h⟩
  · exact ⟨-1, by simp, scanHit_self key C now (-1) (by omega)⟩
  · exact ⟨0, by simp, scanHit_self key C now 0 (by omega)⟩
  · exact ⟨1, by simp, scanHit_self key C now 1 (by omega)⟩

set_option maxRecDepth 1000000 in
/-- C3 witness: the code for counter 5 validates at `now = 150`
(which maps to counter 5). -/
theorem validate_accepts_inside_tolerance_witness :
    validate4DigitTOTP (generate4DigitTOTP [] 5) [] 150 = true :=
  validate_accepts_inside_tolerance [] 5 150 (Or.inr (Or.inl (by decide)))

set_option maxRecDepth 1000000 in
/-- C2 (counterexample): the universal rejection claim is false. With
key `[3]`, the 4-digit codes for counters 28 and 30 collide, so the code
derived for counter `C = 28`, submitted at `now = 900` (which maps to
counter `C + 2 = 30`), is accepted by the validator. -/
theorem validate_outside_tolerance_cex :
    validate4DigitTOTP (generate4DigitTOTP [3] 28) [3] (30 * (28 + 2)) = true := by
  decide

/-- C2 (amended): the code derived for counter `C` is rejected when the
validator's time maps to counter `C + 2` or `C - 2`, provided no counter
the validator scans (the non-negative ones among `now/TimeStep + i`,
`i ∈ {-1, 0, 1}`) happens to share `C`'s 4-digit code. -/
theorem validate_rejects_outside_tolerance (key : List Nat) (C now : Nat)
    (_hwin : now / TIME_STEP = C + 2 ∨ (2 ≤ C ∧ now / TIME_STEP + 2 = C))
    (hnocol : ∀ i ∈ skewOffsets, 0 ≤ ((now / TIME_STEP : Nat) : Int) + i →
      generate4DigitTOTP key (((now / TIME_STEP : Nat) : Int) + i).toNat
        ≠ generate4DigitTOTP key C) :
    validate4DigitTOTP (generate4DigitTOTP key C) key now = false := by
  unfold validate4DigitTOTP
  rw [List.any_eq_false]
  intro i hi
  unfold scanHit
  by_cases hneg : ((now / TIME_STEP : Nat) : Int) + i < 0
  · rw [if_pos hneg]
    decide
  · rw [if_neg hneg]
    intro hbeq
    exact hnocol i hi (Int.not_lt.mp hneg) (eq_of_beq hbeq).symm

set_option maxRecDepth 1000000 in
/-- C2 witness: with the empty key, the code for counter 0 is rejected
at `now = 60` (counter 2), the scanned counters 1, 2, 3 all having
different codes. -/
theorem validate_rejects_outside_tolerance_witness :
    validate4DigitTOTP (generate4DigitTOTP [] 0) [] 60 = false :=
  validate_rejects_outside_tolerance [] 0 60 (Or.inl (by decide)) (by decide)

set_option maxRecDepth 1000000 in
/-- C4 (counterexample): the scan does not give offset 0 priority. With
key `[12]`, counters 72 and 73 share one code; submitting the code for
counter 73 at `now = 2190` (counter 73) matches at offsets −1 and 0,
and the reported offset is −1, not 0. -/
theorem validateOffset_order_cex :
    validate4DigitTOTPOffset (generate4DigitTOTP [12] 73) [12] (30 * 73) = some (-1) ∧
    generate4DigitTOTP [12] 72 = generate4DigitTOTP [12] 73 :=
  ⟨by decide, by decide⟩

/-- C4 (amended): the scan evaluates offsets in the loop's ascending
order `-tolerance, …, +tolerance` (so `-1, 0, 1`), and the offset
reported on a match is therefore the least matching one — not the one
closest to the current counter. -/
theorem validateOffset_reports_least_match (key : List Nat) (s : String) (now : Nat)
    (i j : Int)
    (hres : validate4DigitTOTPOffset s key now = some i)
    (hj : j ∈ skewOffsets)
    (hj0 : 0 ≤ ((now / TIME_STEP : Nat) : Int) + j)
    (hjm : s = generate4DigitTOTP key (((now / TIME_STEP : Nat) : Int) + j).toNat) :
    i ≤ j := by
  have hfj : scanHit s key now j = true := by
    unfold scanHit
    rw [if_neg (Int.not_lt.mpr hj0), hjm]
    simp
  unfold validate4DigitTOTPOffset at hres
  rw [skewOffsets_eq] at hres hj
  by_cases h1 : scanHit s key now (-1)
  · rw [List.find?_cons_of_pos _ h1] at hres
    obtain rfl : i = -1 := by injection hres with h; exact h.symm
    fin_cases hj <;> omega
  · rw [List.find?_cons_of_neg _ h1] at hres
    by_cases h2 : scanHit s key now 0
    · rw [List.find?_cons_of_pos _ h2] at hres
      obtain rfl : i = 0 := by injection hres with h; exact h.symm
      fin_cases hj
      · exact absurd hfj h1
      · omega
      · omega
    · rw [List.find?_cons_of_neg _ h2] at hres
      by_cases h3 : scanHit s key now 1
      · rw [List.find?_cons_of_pos _ h3] at hres
        obtain rfl : i = 1 := by injection hres with h; exact h.symm
        fin_cases hj
        · exact absurd hfj h1
        · exact absurd hfj h2
        · omega
      · rw [List.find?_cons_of_neg _ h3] at hres
        simp at hres

set_option maxRecDepth 1000000 in
/-- C4 witness: at the collision instance, the reported offset −1 is
indeed no greater than the also-matching offset 0. -/
theorem validateOffset_reports_least_match_witness : (-1 : Int) ≤ 0 :=
  validateOffset_reports_least_match [12] (generate4DigitTOTP [12] 73) 2190 (-1) 0
    (by decide) (by decide) (by decide) (by decide)

end Totp
